import Mathlib

/-!
Shallow embedding of `internal/provider/provider.go` of
terraform-provider-leaseweb: the provider facade with its `Configure`
configuration-resolution method and the static `DataSources` / `Resources`
constructor registries, together with proofs of the specified properties.
-/

namespace Leaseweb

/-- Tri-state Terraform string value (`types.String`): null, unknown, or a
known string, mirroring `IsNull` / `IsUnknown` / `ValueString`. -/
inductive TFString where
  | null
  | unknown
  | known (v : String)
deriving DecidableEq, Repr

/-- `types.String.IsNull`. -/
def TFString.isNull : TFString → Bool
  | .null => true
  | _ => false

/-- `types.String.IsUnknown`. -/
def TFString.isUnknown : TFString → Bool
  | .unknown => true
  | _ => false

/-- `types.String.ValueString`: the known value, `""` for null/unknown. -/
def TFString.valueString : TFString → String
  | .known v => v
  | _ => ""

/-- `leasewebProviderModel`: the three user-facing settings decoded from the
host-supplied configuration (provider.go lines 40-44). -/
structure leasewebProviderModel where
  host : TFString
  token : TFString
  scheme : TFString
deriving DecidableEq, Repr

/-- The process environment restricted to the three variables the provider
reads; `os.Getenv` returns `""` for an unset variable, so a set-to-empty
variable is indistinguishable from an unset one. -/
structure Env where
  leasewebHost : String
  leasewebScheme : String
  leasewebToken : String
deriving DecidableEq, Repr

/-- `os.Getenv` on the three names used by `Configure`. -/
def Env.getenv (e : Env) : String → String
  | "LEASEWEB_HOST" => e.leasewebHost
  | "LEASEWEB_SCHEME" => e.leasewebScheme
  | "LEASEWEB_TOKEN" => e.leasewebToken
  | _ => ""

/-- Diagnostic severity of the plugin framework. -/
inductive Severity where
  | error
  | warning
deriving DecidableEq, Repr

/-- A structured diagnostic: severity, attribute path, summary, detail. -/
structure Diagnostic where
  severity : Severity
  path : String
  summary : String
  detail : String
deriving DecidableEq, Repr

/-- `resp.Diagnostics.HasError()`. -/
def hasError (ds : List Diagnostic) : Bool :=
  ds.any fun d => d.severity == Severity.error

/-- The diagnostic added at provider.go lines 92-97 when the token is
unknown. -/
def unknownTokenDiag : Diagnostic :=
  { severity := Severity.error
    path := "token"
    summary := "Unknown Leaseweb API token"
    detail := "The provider cannot create the Leaseweb API client as there is an unknown configuration value for the Leaseweb API token. Either target apply the source of the value first, set the value statically in the configuration, or use the LEASEWEB_TOKEN environment variable." }

/-- The diagnostic added at provider.go lines 121-127 when the merged token
is empty. -/
def missingTokenDiag : Diagnostic :=
  { severity := Severity.error
    path := "token"
    summary := "Missing Leaseweb API token"
    detail := "The provider cannot create the Leaseweb API client as there is a missing or empty value for the Leaseweb API token. Set the token value in the configuration or use the LEASEWEB_TOKEN environment variable. If either is already set, ensure the value is not empty." }

/-- `client.Optional`: the optional host/scheme overrides handed to the
client factory; `none` means "let the client apply its default". -/
structure Optional where
  host : Option String := none
  scheme : Option String := none
deriving DecidableEq, Repr

/-- `client.Client`: the opaque handle produced by `client.NewClient`. -/
structure Client where
  token : String
  optional : Optional
  version : String
deriving DecidableEq, Repr

/-- `client.NewClient(token, optional, version)`. -/
def NewClient (token : String) (optional : Optional) (version : String) :
    Client :=
  { token := token, optional := optional, version := version }

/-- The observable outcome of one `Configure` call: the response diagnostics,
the shared data-source and resource state (`resp.DataSourceData` /
`resp.ResourceData`), the ordered list of environment variables read, and the
token value for which log masking was installed (lines 134-137), if any. -/
structure ConfigureResult where
  diagnostics : List Diagnostic
  dataSourceData : Option Client
  resourceData : Option Client
  envReads : List String
  maskedToken : Option String
deriving DecidableEq, Repr

/-- The merge at provider.go lines 104-118: the environment value is the
fallback, overwritten by the config value whenever the config field is not
null. -/
def resolveField (c : TFString) (envVal : String) : String :=
  if !c.isNull then c.valueString else envVal

/-- Lines 139-145: a resolved value becomes an override only when it is
non-empty. -/
def toOverride (s : String) : Option String :=
  if s ≠ "" then some s else none

/-- `leasewebProvider.Configure` (provider.go lines 79-157).  `decodeDiags`
stands for the diagnostics returned by `req.Config.Get`; `config` is the
decoded model. -/
def Configure (version : String) (config : leasewebProviderModel)
    (decodeDiags : List Diagnostic) (env : Env) : ConfigureResult :=
  if hasError decodeDiags then
    { diagnostics := decodeDiags, dataSourceData := none, resourceData := none
      envReads := [], maskedToken := none }
  else
    let diags1 :=
      if config.token.isUnknown then decodeDiags ++ [unknownTokenDiag]
      else decodeDiags
    if hasError diags1 then
      { diagnostics := diags1, dataSourceData := none, resourceData := none
        envReads := [], maskedToken := none }
    else
      let reads := ["LEASEWEB_HOST", "LEASEWEB_SCHEME", "LEASEWEB_TOKEN"]
      let host := resolveField config.host (env.getenv "LEASEWEB_HOST")
      let scheme := resolveField config.scheme (env.getenv "LEASEWEB_SCHEME")
      let token := resolveField config.token (env.getenv "LEASEWEB_TOKEN")
      let diags2 :=
        if token = "" then diags1 ++ [missingTokenDiag] else diags1
      if hasError diags2 then
        { diagnostics := diags2, dataSourceData := none, resourceData := none
          envReads := reads, maskedToken := none }
      else
        let optional : Optional :=
          { host := toOverride host, scheme := toOverride scheme }
        let coreClient := NewClient token optional version
        { diagnostics := diags2, dataSourceData := some coreClient
          resourceData := some coreClient, envReads := reads
          maskedToken := some token }

/-- `leasewebProvider`: only carries the version string. -/
structure leasewebProvider where
  version : String
deriving DecidableEq, Repr

/-- One host-driven `Configure` call at the facade level: the Go method has a
pointer receiver but never writes to it, so the provider value is returned
unchanged alongside the response. -/
def ConfigureCall (p : leasewebProvider) (config : leasewebProviderModel)
    (decodeDiags : List Diagnostic) (env : Env) :
    leasewebProvider × ConfigureResult :=
  (p, Configure p.version config decodeDiags env)

/-- Identities of the data-source constructors registered in `DataSources`
(provider.go lines 159-177), in source order. -/
inductive DataSourceCtor where
  | publiccloudInstances
  | publiccloudCredential
  | dedicatedserverServer
  | dedicatedserverServers
  | dedicatedserverControlPanels
  | dedicatedserverOperatingSystems
  | dedicatedserverCredential
  | publiccloudImages
  | publiccloudLoadBalancers
  | publiccloudLoadBalancerListeners
  | publiccloudTargetGroups
  | publiccloudISOs
  | dnsResourceRecordSets
  | ipmgmtIPs
  | ipmgmtNullRouteHistory
deriving DecidableEq, Repr

/-- Identities of the resource constructors registered in `Resources`
(provider.go lines 179-198), in source order. -/
inductive ResourceCtor where
  | publiccloudInstance
  | publiccloudCredential
  | dedicatedserverServer
  | dedicatedserverCredential
  | dedicatedserverNotificationSettingDatatraffic
  | dedicatedserverNotificationSettingBandwidth
  | dedicatedserverInstallation
  | publiccloudImage
  | publiccloudLoadBalancer
  | publiccloudLoadBalancerListener
  | publiccloudTargetGroup
  | publiccloudIP
  | publiccloudInstanceIso
  | dnsResourceRecordSets
  | ipmgmtIP
  | ipmgmtNullRoute
deriving DecidableEq, Repr

/-- `leasewebProvider.DataSources`: a fixed literal list, independent of the
receiver and the context. -/
def DataSources (_ : leasewebProvider) : List DataSourceCtor :=
  [ .publiccloudInstances
  , .publiccloudCredential
  , .dedicatedserverServer
  , .dedicatedserverServers
  , .dedicatedserverControlPanels
  , .dedicatedserverOperatingSystems
  , .dedicatedserverCredential
  , .publiccloudImages
  , .publiccloudLoadBalancers
  , .publiccloudLoadBalancerListeners
  , .publiccloudTargetGroups
  , .publiccloudISOs
  , .dnsResourceRecordSets
  , .ipmgmtIPs
  , .ipmgmtNullRouteHistory ]

/-- `leasewebProvider.Resources`: a fixed literal list, independent of the
receiver and the context. -/
def Resources (_ : leasewebProvider) : List ResourceCtor :=
  [ .publiccloudInstance
  , .publiccloudCredential
  , .dedicatedserverServer
  , .dedicatedserverCredential
  , .dedicatedserverNotificationSettingDatatraffic
  , .dedicatedserverNotificationSettingBandwidth
  , .dedicatedserverInstallation
  , .publiccloudImage
  , .publiccloudLoadBalancer
  , .publiccloudLoadBalancerListener
  , .publiccloudTargetGroup
  , .publiccloudIP
  , .publiccloudInstanceIso
  , .dnsResourceRecordSets
  , .ipmgmtIP
  , .ipmgmtNullRoute ]

/-- The error-severity diagnostics recorded on a given attribute path. -/
def errorsOn (p : String) (ds : List Diagnostic) : List Diagnostic :=
  ds.filter fun d => d.severity == Severity.error && d.path == p

/-- Concrete input for the C9 witness: unknown host and scheme, known token,
non-empty host/scheme environment variables. -/
def c9Config : leasewebProviderModel :=
  { host := .unknown, token := .known "tok", scheme := .unknown }

/-- Concrete environment for the C9 witness. -/
def c9Env : Env :=
  { leasewebHost := "h.example", leasewebScheme := "http",
    leasewebToken := "" }

/-- Concrete input for the C10 witness: host and scheme explicitly set to
the empty string, known token, non-empty host/scheme environment
variables. -/
def c10Config : leasewebProviderModel :=
  { host := .known "", token := .known "tok", scheme := .known "" }

/-- Concrete environment for the C10 witness. -/
def c10Env : Env :=
  { leasewebHost := "h.example", leasewebScheme := "http",
    leasewebToken := "" }

/-- The override resolution exactly as the claim words it: the config value
whenever the field is present (`Known`), otherwise the environment value when
non-empty, otherwise absent. -/
def c4ClaimOverride : TFString → String → Option String
  | TFString.known v, _ => some v
  | _, e => if e ≠ "" then some e else none

/-- The override resolution as the code computes it: the config value when
`Known` AND non-empty; absent when `Known` empty (the environment is
suppressed); otherwise the environment value when non-empty; otherwise
absent (`Unknown` behaves like `Known ""`). -/
def c4AmendedOverride : TFString → String → Option String
  | TFString.known v, _ => if v ≠ "" then some v else none
  | TFString.null, e => if e ≠ "" then some e else none
  | TFString.unknown, _ => none

/-- Concrete input refuting C4 as stated: host `Known ""` with a non-empty
`LEASEWEB_HOST`. -/
def c4Config : leasewebProviderModel :=
  { host := .known "", token := .known "tok", scheme := .null }

/-- Concrete environment refuting C4 as stated. -/
def c4Env : Env :=
  { leasewebHost := "other.example.com", leasewebScheme := "",
    leasewebToken := "" }

/-- Character-list prefix test used by the masking model. -/
def isPre : List Char → List Char → Bool
  | [], _ => true
  | _ :: _, [] => false
  | a :: as, b :: bs => a == b && isPre as bs

/-- First occurrence of `tok` in `text`: `some (pre, suf)` with
`text = pre ++ tok ++ suf` and no occurrence starting earlier, `none` when
`tok` does not occur. -/
def splitFirst (tok : List Char) : List Char → Option (List Char × List Char)
  | [] => if isPre tok [] then some ([], []) else none
  | c :: rest =>
    if isPre tok (c :: rest) then some ([], (c :: rest).drop tok.length)
    else
      match splitFirst tok rest with
      | some (pre, suf) => some (c :: pre, suf)
      | none => none

/-- Modelled from the spec: the redaction marker substituted for the masked
secret in log output. -/
def redactionMarker : List Char := ['*', '*', '*']

/-- Fuel-indexed worker for `maskSerialized`: replaces the first occurrence
of `tok` with the redaction marker and continues on the remaining suffix. -/
def maskGo (tok : List Char) : Nat → List Char → List Char
  | 0, text => text
  | n + 1, text =>
    match splitFirst tok text with
    | none => text
    | some (pre, suf) => pre ++ redactionMarker ++ maskGo tok n suf

/-- Modelled from the spec: the masking rule `Configure` installs via
`tflog.MaskFieldValuesWithFieldKeys` (its implementation lives in the
terraform-plugin-log library, outside this repository) — every occurrence of
the literal token value in a subsequently emitted serialized log record is
replaced with a redaction marker, not just the field named for the token. -/
def maskSerialized (tok text : List Char) : List Char :=
  if tok = [] then text else maskGo tok text.length text

/-- Concrete input for the C2 witness: token known as `s3cr3t`. -/
def c2Config : leasewebProviderModel :=
  { host := .null, token := .known "s3cr3t", scheme := .null }

/-- Concrete environment for the C2 witness. -/
def c2Env : Env :=
  { leasewebHost := "", leasewebScheme := "", leasewebToken := "" }

theorem hasError_append (a b : List Diagnostic) :
    hasError (a ++ b) = (hasError a || hasError b) := by
  simp [hasError, List.any_append]

theorem errorsOn_append (p : String) (a b : List Diagnostic) :
    errorsOn p (a ++ b) = errorsOn p a ++ errorsOn p b := by
  simp [errorsOn]

theorem errorsOn_of_hasError_false (p : String) (ds : List Diagnostic)
    (h : hasError ds = false) : errorsOn p ds = [] := by
  induction ds with
  | nil => rfl
  | cons d t ih =>
      simp only [hasError, List.any_cons, Bool.or_eq_false_iff] at h
      simp only [errorsOn, List.filter_cons]
      rw [if_neg (by simp [h.1])]
      exact ih (by simp [hasError, h.2])

/-- Shape of the `Configure` result on the success path: no unknown token, a
non-empty merged token, no decode errors. -/
theorem Configure_success (v : String) (config : leasewebProviderModel)
    (dd : List Diagnostic) (env : Env)
    (h1 : hasError dd = false)
    (h2 : config.token.isUnknown = false)
    (h3 : resolveField config.token (env.getenv "LEASEWEB_TOKEN") ≠ "") :
    Configure v config dd env =
      { diagnostics := dd
        dataSourceData := some (NewClient
          (resolveField config.token (env.getenv "LEASEWEB_TOKEN"))
          { host := toOverride (resolveField config.host (env.getenv "LEASEWEB_HOST"))
            scheme := toOverride (resolveField config.scheme (env.getenv "LEASEWEB_SCHEME")) }
          v)
        resourceData := some (NewClient
          (resolveField config.token (env.getenv "LEASEWEB_TOKEN"))
          { host := toOverride (resolveField config.host (env.getenv "LEASEWEB_HOST"))
            scheme := toOverride (resolveField config.scheme (env.getenv "LEASEWEB_SCHEME")) }
          v)
        envReads := ["LEASEWEB_HOST", "LEASEWEB_SCHEME", "LEASEWEB_TOKEN"]
        maskedToken := some (resolveField config.token (env.getenv "LEASEWEB_TOKEN")) } := by
  simp [Configure, h1, h2, h3]

/-- C1: token `Unknown` → exactly one error diagnostic, on path `token`; the
environment is never read, host/scheme are not resolved, no client handle is
produced. -/
theorem unknown_token_stops_resolution (v : String)
    (config : leasewebProviderModel) (dd : List Diagnostic) (env : Env)
    (h1 : hasError dd = false) (h2 : config.token = TFString.unknown) :
    (Configure v config dd env).diagnostics = dd ++ [unknownTokenDiag] ∧
    errorsOn "token" (Configure v config dd env).diagnostics =
      [unknownTokenDiag] ∧
    unknownTokenDiag.severity = Severity.error ∧
    unknownTokenDiag.path = "token" ∧
    (Configure v config dd env).envReads = [] ∧
    (Configure v config dd env).dataSourceData = none ∧
    (Configure v config dd env).resourceData = none ∧
    (Configure v config dd env).maskedToken = none := by
  have hu : config.token.isUnknown = true := by rw [h2]; rfl
  have he : hasError (dd ++ [unknownTokenDiag]) = true := by
    simp [hasError_append, hasError, unknownTokenDiag]
  have hconf : Configure v config dd env =
      { diagnostics := dd ++ [unknownTokenDiag], dataSourceData := none
        resourceData := none, envReads := [], maskedToken := none } := by
    simp [Configure, h1, hu, he]
  refine ⟨by rw [hconf], ?_, rfl, rfl, by rw [hconf], by rw [hconf],
    by rw [hconf], by rw [hconf]⟩
  rw [hconf]
  show errorsOn "token" (dd ++ [unknownTokenDiag]) = [unknownTokenDiag]
  rw [errorsOn_append, errorsOn_of_hasError_false _ _ h1]
  rfl

theorem unknown_token_stops_resolution_witness :
    (Configure "dev" { host := .null, token := .unknown, scheme := .null } []
      { leasewebHost := "h.example", leasewebScheme := "https",
        leasewebToken := "abc" }).envReads = [] ∧
    (Configure "dev" { host := .null, token := .unknown, scheme := .null } []
      { leasewebHost := "h.example", leasewebScheme := "https",
        leasewebToken := "abc" }).dataSourceData = none :=
  ⟨(unknown_token_stops_resolution "dev"
      { host := .null, token := .unknown, scheme := .null } []
      { leasewebHost := "h.example", leasewebScheme := "https",
        leasewebToken := "abc" } (by decide) rfl).2.2.2.2.1,
   (unknown_token_stops_resolution "dev"
      { host := .null, token := .unknown, scheme := .null } []
      { leasewebHost := "h.example", leasewebScheme := "https",
        leasewebToken := "abc" } (by decide) rfl).2.2.2.2.2.1⟩

/-- C3: token not `Unknown` and merged token empty → exactly one error
diagnostic on path `token`, and no client handle. -/
theorem missing_token_single_diag (v : String)
    (config : leasewebProviderModel) (dd : List Diagnostic) (env : Env)
    (h1 : hasError dd = false)
    (h2 : config.token.isUnknown = false)
    (h3 : resolveField config.token (env.getenv "LEASEWEB_TOKEN") = "") :
    (Configure v config dd env).diagnostics = dd ++ [missingTokenDiag] ∧
    errorsOn "token" (Configure v config dd env).diagnostics =
      [missingTokenDiag] ∧
    missingTokenDiag.severity = Severity.error ∧
    missingTokenDiag.path = "token" ∧
    (Configure v config dd env).dataSourceData = none ∧
    (Configure v config dd env).resourceData = none := by
  have he : hasError (dd ++ [missingTokenDiag]) = true := by
    simp [hasError_append, hasError, missingTokenDiag]
  have hconf : Configure v config dd env =
      { diagnostics := dd ++ [missingTokenDiag], dataSourceData := none
        resourceData := none
        envReads := ["LEASEWEB_HOST", "LEASEWEB_SCHEME", "LEASEWEB_TOKEN"]
        maskedToken := none } := by
    simp [Configure, h1, h2, h3, he]
  refine ⟨by rw [hconf], ?_, rfl, rfl, by rw [hconf], by rw [hconf]⟩
  rw [hconf]
  show errorsOn "token" (dd ++ [missingTokenDiag]) = [missingTokenDiag]
  rw [errorsOn_append, errorsOn_of_hasError_false _ _ h1]
  rfl

theorem missing_token_single_diag_witness :
    errorsOn "token" (Configure "dev"
      { host := .null, token := .null, scheme := .null } []
      { leasewebHost := "", leasewebScheme := "", leasewebToken := "" }).diagnostics
      = [missingTokenDiag] ∧
    (Configure "dev" { host := .null, token := .null, scheme := .null } []
      { leasewebHost := "", leasewebScheme := "", leasewebToken := "" }).dataSourceData
      = none :=
  ⟨(missing_token_single_diag "dev"
      { host := .null, token := .null, scheme := .null } []
      { leasewebHost := "", leasewebScheme := "", leasewebToken := "" }
      (by decide) rfl rfl).2.1,
   (missing_token_single_diag "dev"
      { host := .null, token := .null, scheme := .null } []
      { leasewebHost := "", leasewebScheme := "", leasewebToken := "" }
      (by decide) rfl rfl).2.2.2.2.1⟩

/-- C5: any error-severity diagnostic recorded during `Configure` (decode
diagnostics included) means no client handle is produced in either shared
state. -/
theorem error_diag_means_no_client (v : String)
    (config : leasewebProviderModel) (dd : List Diagnostic) (env : Env)
    (h : hasError (Configure v config dd env).diagnostics = true) :
    (Configure v config dd env).dataSourceData = none ∧
    (Configure v config dd env).resourceData = none := by
  by_cases h1 : hasError dd = true
  · simp [Configure, h1]
  · have h1' : hasError dd = false := by simpa using h1
    by_cases h2 : config.token.isUnknown = true
    · have he : hasError (dd ++ [unknownTokenDiag]) = true := by
        simp [hasError_append, hasError, unknownTokenDiag]
      simp [Configure, h1', h2, he]
    · have h2' : config.token.isUnknown = false := by simpa using h2
      by_cases h3 : resolveField config.token (env.getenv "LEASEWEB_TOKEN") = ""
      · have he : hasError (dd ++ [missingTokenDiag]) = true := by
          simp [hasError_append, hasError, missingTokenDiag]
        simp [Configure, h1', h2', h3, he]
      · rw [Configure_success v config dd env h1' h2' h3] at h
        simp [h1'] at h

theorem error_diag_means_no_client_witness :
    (Configure "dev" { host := .null, token := .null, scheme := .null } []
      { leasewebHost := "", leasewebScheme := "", leasewebToken := "" }).dataSourceData
      = none ∧
    (Configure "dev" { host := .null, token := .null, scheme := .null } []
      { leasewebHost := "", leasewebScheme := "", leasewebToken := "" }).resourceData
      = none :=
  error_diag_means_no_client "dev"
    { host := .null, token := .null, scheme := .null } []
    { leasewebHost := "", leasewebScheme := "", leasewebToken := "" }
    (by decide)

/-- C6: the constructor registries are fixed literal lists — identical across
calls, across provider values, and unchanged by a `Configure` call. -/
theorem registries_fixed (p q : leasewebProvider)
    (config : leasewebProviderModel) (dd : List Diagnostic) (env : Env) :
    DataSources (ConfigureCall p config dd env).1 = DataSources q ∧
    Resources (ConfigureCall p config dd env).1 = Resources q :=
  ⟨rfl, rfl⟩

/-- C7: with only `LEASEWEB_TOKEN=abc123` set and all config fields null,
`Configure` succeeds without error diagnostics and builds the client with
token `abc123` and no host/scheme override. -/
theorem env_token_only_success (v : String) :
    hasError (Configure v { host := .null, token := .null, scheme := .null }
      [] { leasewebHost := "", leasewebScheme := "",
           leasewebToken := "abc123" }).diagnostics = false ∧
    (Configure v { host := .null, token := .null, scheme := .null } []
      { leasewebHost := "", leasewebScheme := "",
        leasewebToken := "abc123" }).dataSourceData =
      some (NewClient "abc123" { host := none, scheme := none } v) ∧
    (Configure v { host := .null, token := .null, scheme := .null } []
      { leasewebHost := "", leasewebScheme := "",
        leasewebToken := "abc123" }).resourceData =
      some (NewClient "abc123" { host := none, scheme := none } v) := by
  have hconf := Configure_success v
    { host := .null, token := .null, scheme := .null } []
    { leasewebHost := "", leasewebScheme := "", leasewebToken := "abc123" }
    rfl rfl (by decide)
  rw [hconf]
  exact ⟨rfl, rfl, rfl⟩

/-- C8: on a successful `Configure` (no error diagnostics) a single client
handle is constructed and both shared states carry that same handle. -/
theorem success_shared_single_client (v : String)
    (config : leasewebProviderModel) (dd : List Diagnostic) (env : Env)
    (h : hasError (Configure v config dd env).diagnostics = false) :
    ∃ c, (Configure v config dd env).dataSourceData = some c ∧
         (Configure v config dd env).resourceData = some c := by
  by_cases h1 : hasError dd = true
  · have : (Configure v config dd env).diagnostics = dd := by
      simp [Configure, h1]
    rw [this, h1] at h
    exact absurd h (by simp)
  · have h1' : hasError dd = false := by simpa using h1
    by_cases h2 : config.token.isUnknown = true
    · have he : hasError (dd ++ [unknownTokenDiag]) = true := by
        simp [hasError_append, hasError, unknownTokenDiag]
      have : (Configure v config dd env).diagnostics = dd ++ [unknownTokenDiag] := by
        simp [Configure, h1', h2, he]
      rw [this, he] at h
      exact absurd h (by simp)
    · have h2' : config.token.isUnknown = false := by simpa using h2
      by_cases h3 : resolveField config.token (env.getenv "LEASEWEB_TOKEN") = ""
      · have he : hasError (dd ++ [missingTokenDiag]) = true := by
          simp [hasError_append, hasError, missingTokenDiag]
        have : (Configure v config dd env).diagnostics = dd ++ [missingTokenDiag] := by
          simp [Configure, h1', h2', h3, he]
        rw [this, he] at h
        exact absurd h (by simp)
      · rw [Configure_success v config dd env h1' h2' h3]
        exact ⟨_, rfl, rfl⟩

theorem success_shared_single_client_witness :
    ∃ c, (Configure "dev" { host := .null, token := .null, scheme := .null }
      [] { leasewebHost := "", leasewebScheme := "",
           leasewebToken := "abc123" }).dataSourceData = some c ∧
      (Configure "dev" { host := .null, token := .null, scheme := .null } []
        { leasewebHost := "", leasewebScheme := "",
          leasewebToken := "abc123" }).resourceData = some c :=
  success_shared_single_client "dev"
    { host := .null, token := .null, scheme := .null } []
    { leasewebHost := "", leasewebScheme := "", leasewebToken := "abc123" }
    (by decide)

/-- C9: an `Unknown` host/scheme resolves to `""` (because `ValueString`
yields `""` and `IsNull` is false, so the environment is never consulted),
hence the corresponding override is absent even when the environment variable
is non-empty. -/
theorem unknown_host_scheme_discards_env (v : String)
    (config : leasewebProviderModel) (dd : List Diagnostic) (env : Env)
    (h1 : hasError dd = false)
    (h2 : config.token.isUnknown = false)
    (h3 : resolveField config.token (env.getenv "LEASEWEB_TOKEN") ≠ "") :
    ∃ c, (Configure v config dd env).dataSourceData = some c ∧
      (config.host = TFString.unknown →
        resolveField config.host (env.getenv "LEASEWEB_HOST") = "" ∧
        c.optional.host = none) ∧
      (config.scheme = TFString.unknown →
        resolveField config.scheme (env.getenv "LEASEWEB_SCHEME") = "" ∧
        c.optional.scheme = none) := by
  rw [Configure_success v config dd env h1 h2 h3]
  refine ⟨_, rfl, ?_, ?_⟩
  · intro hh; rw [hh]; exact ⟨rfl, rfl⟩
  · intro hh; rw [hh]; exact ⟨rfl, rfl⟩

theorem unknown_host_scheme_discards_env_witness :
    ∃ c, (Configure "dev" c9Config [] c9Env).dataSourceData = some c ∧
      (c9Config.host = TFString.unknown →
        resolveField c9Config.host (c9Env.getenv "LEASEWEB_HOST") = "" ∧
        c.optional.host = none) ∧
      (c9Config.scheme = TFString.unknown →
        resolveField c9Config.scheme (c9Env.getenv "LEASEWEB_SCHEME") = "" ∧
        c.optional.scheme = none) :=
  unknown_host_scheme_discards_env "dev" c9Config [] c9Env
    (by decide) rfl (by decide)

/-- C10: a host/scheme explicitly set to the empty string yields an absent
override (same as never set) and suppresses any non-empty environment
value. -/
theorem known_empty_override_absent (v : String)
    (config : leasewebProviderModel) (dd : List Diagnostic) (env : Env)
    (h1 : hasError dd = false)
    (h2 : config.token.isUnknown = false)
    (h3 : resolveField config.token (env.getenv "LEASEWEB_TOKEN") ≠ "") :
    ∃ c, (Configure v config dd env).dataSourceData = some c ∧
      (config.host = TFString.known "" → c.optional.host = none) ∧
      (config.scheme = TFString.known "" → c.optional.scheme = none) := by
  rw [Configure_success v config dd env h1 h2 h3]
  refine ⟨_, rfl, ?_, ?_⟩
  · intro hh; rw [hh]; rfl
  · intro hh; rw [hh]; rfl

theorem known_empty_override_absent_witness :
    ∃ c, (Configure "dev" c10Config [] c10Env).dataSourceData = some c ∧
      (c10Config.host = TFString.known "" → c.optional.host = none) ∧
      (c10Config.scheme = TFString.known "" → c.optional.scheme = none) :=
  known_empty_override_absent "dev" c10Config [] c10Env
    (by decide) rfl (by decide)

/-- C4 counterexample: with host config `Known ""`, the claim predicts the
override `some ""` (the config value is present), but `Configure` produces an
absent host override. -/
theorem claim_override_counterexample :
    ((Configure "dev" c4Config [] c4Env).dataSourceData.map
      fun c => c.optional.host) ≠
    some (c4ClaimOverride c4Config.host (c4Env.getenv "LEASEWEB_HOST")) := by
  decide

/-- C4 amended: on the success path, the host and scheme overrides follow the
claimed precedence except that a `Known` empty config value yields an absent
override and suppresses the environment value. -/
theorem override_precedence_amended (v : String)
    (config : leasewebProviderModel) (dd : List Diagnostic) (env : Env)
    (h1 : hasError dd = false)
    (h2 : config.token.isUnknown = false)
    (h3 : resolveField config.token (env.getenv "LEASEWEB_TOKEN") ≠ "") :
    ∃ c, (Configure v config dd env).dataSourceData = some c ∧
      c.optional.host =
        c4AmendedOverride config.host (env.getenv "LEASEWEB_HOST") ∧
      c.optional.scheme =
        c4AmendedOverride config.scheme (env.getenv "LEASEWEB_SCHEME") := by
  rw [Configure_success v config dd env h1 h2 h3]
  refine ⟨_, rfl, ?_, ?_⟩
  · cases config.host <;> rfl
  · cases config.scheme <;> rfl

theorem override_precedence_amended_witness :
    ∃ c, (Configure "dev" c4Config [] c4Env).dataSourceData = some c ∧
      c.optional.host =
        c4AmendedOverride c4Config.host (c4Env.getenv "LEASEWEB_HOST") ∧
      c.optional.scheme =
        c4AmendedOverride c4Config.scheme (c4Env.getenv "LEASEWEB_SCHEME") :=
  override_precedence_amended "dev" c4Config [] c4Env
    (by decide) rfl (by decide)

theorem isPre_iff (t l : List Char) : isPre t l = true ↔ ∃ s, l = t ++ s := by
  induction t generalizing l with
  | nil => simp [isPre]
  | cons a as ih =>
    cases l with
    | nil => simp [isPre]
    | cons b bs =>
      simp only [isPre, Bool.and_eq_true, beq_iff_eq, ih, List.cons_append,
        List.cons.injEq]
      constructor
      · rintro ⟨rfl, s, rfl⟩
        exact ⟨s, rfl, rfl⟩
      · rintro ⟨s, rfl, rfl⟩
        exact ⟨rfl, s, rfl⟩

theorem splitFirst_some (tok : List Char) :
    ∀ text pre suf, splitFirst tok text = some (pre, suf) →
      text = pre ++ tok ++ suf := by
  intro text
  induction text with
  | nil =>
    intro pre suf h
    by_cases hp : isPre tok [] = true
    · obtain ⟨s, hs⟩ := (isPre_iff _ _).1 hp
      have htok : tok = [] := by
        cases tok with
        | nil => rfl
        | cons a as => exact List.noConfusion hs
      simp [splitFirst, hp] at h
      obtain ⟨rfl, rfl⟩ := h
      rw [htok]
      rfl
    · simp [splitFirst, hp] at h
  | cons c rest ih =>
    intro pre suf h
    by_cases hp : isPre tok (c :: rest) = true
    · obtain ⟨s, hs⟩ := (isPre_iff _ _).1 hp
      simp [splitFirst, hp] at h
      obtain ⟨rfl, rfl⟩ := h
      rw [List.nil_append, hs, List.drop_left]
    · simp only [splitFirst, hp, if_false, Bool.false_eq_true] at h
      cases hsf : splitFirst tok rest with
      | none => rw [hsf] at h; exact Option.noConfusion h
      | some ps =>
        obtain ⟨p', s'⟩ := ps
        rw [hsf] at h
        simp only [Option.some.injEq, Prod.mk.injEq] at h
        obtain ⟨h1, h2⟩ := h
        rw [← h1, ← h2, ih p' s' hsf]
        rfl

theorem splitFirst_none (tok : List Char) :
    ∀ text, splitFirst tok text = none →
      ¬ ∃ pre suf, text = pre ++ tok ++ suf := by
  intro text
  induction text with
  | nil =>
    intro h
    by_cases hp : isPre tok [] = true
    · simp [splitFirst, hp] at h
    · rintro ⟨pre, suf, hps⟩
      have htok : tok = [] := by
        cases pre with
        | cons p ps => exact List.noConfusion hps
        | nil =>
          cases tok with
          | cons a as => exact List.noConfusion hps
          | nil => rfl
      exact hp ((isPre_iff _ _).2 ⟨[], by rw [htok]; rfl⟩)
  | cons c rest ih =>
    intro h
    by_cases hp : isPre tok (c :: rest) = true
    · simp [splitFirst, hp] at h
    · simp only [splitFirst, hp, if_false, Bool.false_eq_true] at h
      cases hsf : splitFirst tok rest with
      | some ps => rw [hsf] at h; exact Option.noConfusion h
      | none =>
        rintro ⟨pre, suf, hps⟩
        cases pre with
        | nil =>
          rw [List.nil_append] at hps
          exact hp ((isPre_iff _ _).2 ⟨suf, hps⟩)
        | cons p ps =>
          rw [List.cons_append, List.cons_append] at hps
          have h2 := List.tail_eq_of_cons_eq hps
          exact ih hsf ⟨ps, suf, h2⟩

theorem splitFirst_min (tok : List Char) (htok : tok ≠ []) :
    ∀ text pre suf, splitFirst tok text = some (pre, suf) →
      ¬ ∃ p s, pre = p ++ tok ++ s := by
  intro text
  induction text with
  | nil =>
    intro pre suf h
    by_cases hp : isPre tok [] = true
    · obtain ⟨s, hs⟩ := (isPre_iff _ _).1 hp
      cases tok with
      | nil => exact absurd rfl htok
      | cons a as => exact List.noConfusion hs
    · simp [splitFirst, hp] at h
  | cons c rest ih =>
    intro pre suf h
    by_cases hp : isPre tok (c :: rest) = true
    · simp [splitFirst, hp] at h
      rintro ⟨p, s, hps⟩
      rw [h.1] at hps
      cases p with
      | cons q qs => exact List.noConfusion hps
      | nil =>
        cases tok with
        | nil => exact absurd rfl htok
        | cons a as => exact List.noConfusion hps
    · simp only [splitFirst, hp, if_false, Bool.false_eq_true] at h
      cases hsf : splitFirst tok rest with
      | none => rw [hsf] at h; exact Option.noConfusion h
      | some ps =>
        obtain ⟨p', s'⟩ := ps
        rw [hsf] at h
        simp only [Option.some.injEq, Prod.mk.injEq] at h
        obtain ⟨h1, h2⟩ := h
        rintro ⟨p, s, hps⟩
        rw [← h1] at hps
        cases p with
        | nil =>
          rw [List.nil_append] at hps
          have hrest := splitFirst_some tok rest p' s' hsf
          apply hp
          apply (isPre_iff _ _).2
          refine ⟨s ++ (tok ++ s'), ?_⟩
          have hcr : c :: rest = (c :: p') ++ (tok ++ s') := by
            rw [hrest]; simp
          rw [hcr, hps]
          simp
        | cons q qs =>
          rw [List.cons_append, List.cons_append] at hps
          have h2' := List.tail_eq_of_cons_eq hps
          exact ih p' s' hsf ⟨qs, s, h2'⟩

theorem append_eq_append_split (w x y z : List Char) (h : w ++ x = y ++ z) :
    (∃ u, y = w ++ u ∧ x = u ++ z) ∨ (∃ u, w = y ++ u ∧ z = u ++ x) := by
  induction w generalizing y with
  | nil =>
    left
    exact ⟨y, rfl, h⟩
  | cons c cs ih =>
    cases y with
    | nil =>
      right
      exact ⟨c :: cs, rfl, h.symm⟩
    | cons d ds =>
      rw [List.cons_append, List.cons_append] at h
      have hcd := List.head_eq_of_cons_eq h
      have htl := List.tail_eq_of_cons_eq h
      rcases ih ds htl with ⟨u, hu1, hu2⟩ | ⟨u, hu1, hu2⟩
      · left
        exact ⟨u, by rw [hu1, hcd]; rfl, hu2⟩
      · right
        exact ⟨u, by rw [hu1, hcd]; rfl, hu2⟩

theorem occurrence_in_append (a b p s tok : List Char)
    (h : a ++ b = p ++ tok ++ s) :
    (∃ p' s', a = p' ++ tok ++ s') ∨ (∃ p' s', b = p' ++ tok ++ s') ∨
    (∃ t1 t2, tok = t1 ++ t2 ∧ t1 ≠ [] ∧ t2 ≠ [] ∧
      (∃ p', a = p' ++ t1) ∧ (∃ s', b = t2 ++ s')) := by
  have h' : a ++ b = (p ++ tok) ++ s := by rw [h]
  rcases append_eq_append_split a b (p ++ tok) s h' with
    ⟨u, hu1, hu2⟩ | ⟨u, hu1, hu2⟩
  · -- p ++ tok = a ++ u and b = u ++ s
    rcases append_eq_append_split a u p tok hu1.symm with
      ⟨d, hd1, hd2⟩ | ⟨d, hd1, hd2⟩
    · -- p = a ++ d, u = d ++ tok : the occurrence lies in b
      right; left
      exact ⟨d, s, by rw [hu2, hd2]⟩
    · -- a = p ++ d, tok = d ++ u
      cases d with
      | nil =>
        right; left
        refine ⟨[], s, ?_⟩
        have htu : tok = u := by simpa using hd2
        rw [hu2, htu]
        rfl
      | cons e es =>
        cases u with
        | nil =>
          left
          refine ⟨p, [], ?_⟩
          rw [hd1, hd2]
          simp
        | cons f fs =>
          right; right
          refine ⟨e :: es, f :: fs, hd2, List.cons_ne_nil e es,
            List.cons_ne_nil f fs, ⟨p, hd1⟩, ⟨s, hu2⟩⟩
  · -- a = (p ++ tok) ++ u : the occurrence lies in a
    left
    exact ⟨p, u, by rw [hu1]⟩

theorem maskGo_no_occurrence (tok : List Char) (htok : tok ≠ [])
    (hstar : ∀ c ∈ tok, c ∉ redactionMarker) :
    ∀ n text, text.length ≤ n →
      ¬ ∃ p s, maskGo tok n text = p ++ tok ++ s := by
  intro n
  induction n with
  | zero =>
    intro text hlen
    have htext : text = [] := List.eq_nil_of_length_eq_zero (Nat.le_zero.1 hlen)
    rintro ⟨p, s, hps⟩
    rw [htext] at hps
    simp only [maskGo] at hps
    cases p with
    | cons q qs => exact List.noConfusion hps
    | nil =>
      cases tok with
      | nil => exact absurd rfl htok
      | cons a as => exact List.noConfusion hps
  | succ n ih =>
    intro text hlen
    cases hsf : splitFirst tok text with
    | none =>
      have hmask : maskGo tok (n + 1) text = text := by
        simp only [maskGo, hsf]
      rw [hmask]
      exact splitFirst_none tok text hsf
    | some ps =>
      obtain ⟨pre, suf⟩ := ps
      have htext := splitFirst_some tok text pre suf hsf
      have hsuf : suf.length ≤ n := by
        have hl : text.length = pre.length + tok.length + suf.length := by
          rw [htext]; simp [List.length_append]; omega
        have htokpos : 0 < tok.length := List.length_pos.2 htok
        omega
      have hmask : maskGo tok (n + 1) text =
          pre ++ redactionMarker ++ maskGo tok n suf := by
        simp only [maskGo, hsf]
      rw [hmask]
      rintro ⟨p, s, hps⟩
      rw [List.append_assoc] at hps
      rcases occurrence_in_append pre (redactionMarker ++ maskGo tok n suf)
          p s tok hps with
        ⟨p', s', hpre⟩ | ⟨p', s', hb⟩ |
        ⟨t1, t2, ht, ht1, ht2, ⟨p', hp'⟩, ⟨s', hs'⟩⟩
      · exact splitFirst_min tok htok text pre suf hsf ⟨p', s', hpre⟩
      · rcases occurrence_in_append redactionMarker (maskGo tok n suf)
            p' s' tok hb with
          ⟨p'', s'', hm⟩ | ⟨p'', s'', hr⟩ |
          ⟨t1, t2, ht, ht1, ht2, ⟨p'', hp''⟩, ⟨s'', hs''⟩⟩
        · -- tok would lie inside the marker
          cases tok with
          | nil => exact absurd rfl htok
          | cons a as =>
            refine hstar a (List.mem_cons_self a as) ?_
            rw [hm]
            simp
        · exact ih suf hsuf ⟨p'', s'', hr⟩
        · -- a non-empty piece of tok would end the marker
          cases t1 with
          | nil => exact absurd rfl ht1
          | cons e es =>
            refine hstar e ?_ ?_
            · rw [ht]; simp
            · rw [hp'']; simp
      · -- a non-empty piece of tok would start with the marker head
        cases t2 with
        | nil => exact absurd rfl ht2
        | cons f fs =>
          have hf : f = '*' := by
            simp only [redactionMarker, List.cons_append, List.nil_append,
              List.cons.injEq] at hs'
            exact hs'.1.symm
          have hfin : f ∈ tok := by rw [ht]; simp
          refine hstar f hfin ?_
          rw [hf, redactionMarker]
          simp

theorem maskSerialized_no_occurrence (tok : List Char) (htok : tok ≠ [])
    (hstar : ∀ c ∈ tok, c ∉ redactionMarker) (text : List Char) :
    ¬ ∃ p s, maskSerialized tok text = p ++ tok ++ s := by
  rw [maskSerialized, if_neg htok]
  exact maskGo_no_occurrence tok htok hstar text.length text (Nat.le_refl _)

theorem maskedToken_ne_empty (v : String) (config : leasewebProviderModel)
    (dd : List Diagnostic) (env : Env) (t : String)
    (h : (Configure v config dd env).maskedToken = some t) : t ≠ "" := by
  by_cases h1 : hasError dd = true
  · simp [Configure, h1] at h
  · have h1' : hasError dd = false := by simpa using h1
    by_cases h2 : config.token.isUnknown = true
    · have he : hasError (dd ++ [unknownTokenDiag]) = true := by
        simp [hasError_append, hasError, unknownTokenDiag]
      simp [Configure, h1', h2, he] at h
    · have h2' : config.token.isUnknown = false := by simpa using h2
      by_cases h3 : resolveField config.token (env.getenv "LEASEWEB_TOKEN") = ""
      · have he : hasError (dd ++ [missingTokenDiag]) = true := by
          simp [hasError_append, hasError, missingTokenDiag]
        simp [Configure, h1', h2', h3, he] at h
      · rw [Configure_success v config dd env h1' h2' h3] at h
        simp only [Option.some.injEq] at h
        rw [← h]
        exact h3

/-- C2: once `Configure` has installed masking for the resolved token value,
no subsequently emitted log record's serialized text contains the literal
token value as a substring, wherever in the record it occurs (the token is
non-empty on the masking path, and may not consist of the redaction marker's
own character). -/
theorem masked_token_never_in_log (v : String)
    (config : leasewebProviderModel) (dd : List Diagnostic) (env : Env)
    (t : String)
    (hmask : (Configure v config dd env).maskedToken = some t)
    (hchar : '*' ∉ t.data) (record : List Char) :
    ¬ ∃ p s, maskSerialized t.data record = p ++ t.data ++ s := by
  have ht : t ≠ "" := maskedToken_ne_empty v config dd env t hmask
  have htd : t.data ≠ [] := by
    intro hd
    apply ht
    cases t with
    | mk l => cases hd; rfl
  have hstar : ∀ c ∈ t.data, c ∉ redactionMarker := by
    intro c hc hcr
    simp only [redactionMarker, List.mem_cons, List.not_mem_nil, or_false] at hcr
    rcases hcr with rfl | rfl | rfl <;> exact hchar hc
  exact maskSerialized_no_occurrence t.data htd hstar record

theorem masked_token_never_in_log_witness :
    ¬ ∃ p s, maskSerialized ("s3cr3t".data) ("token is s3cr3t here".data) =
      p ++ "s3cr3t".data ++ s :=
  masked_token_never_in_log "dev" c2Config [] c2Env "s3cr3t"
    (by decide) (by decide) ("token is s3cr3t here".data)

end Leaseweb
